import Mathlib

/-!
Verification of the PDS ASCII label/table parser of `amdapy`
(`src/pds.py`, `src/str_utils.py`).

Python strings are embedded as `List Char`; Python `None` becomes `Option`;
a raised Python exception is the `exn` outcome of `POut`; the unbounded
`while` loops of the source are given explicit fuel, with `fuel` the outcome
of a run that did not finish within its budget.
-/

namespace Amdapy

/-- Python strings are modelled as lists of characters. -/
abbrev Str := List Char

/-- `str.find(c)` for a single-character needle: index of the first
occurrence, `none` standing for Python's `-1`. -/
def pyFind : Str → Char → Option Nat
  | [], _ => none
  | x :: xs, c => if x = c then some 0 else (pyFind xs c).map (· + 1)

/-- `str.find(c, start)`: first occurrence at index `≥ start`, as an index
into the whole string. -/
def pyFindFrom (s : Str) (c : Char) (start : Nat) : Option Nat :=
  (pyFind (s.drop start) c).map (start + ·)

/-- `str_utils.str_rem_preceding` with a one-character `c`: the `while
a.startswith(c)` loop drops leading copies of `c`. -/
def str_rem_preceding (s : Str) (c : Char) : Str :=
  s.dropWhile (· = c)

/-- `str_utils.str_rem_trailing` with a one-character `c`. -/
def str_rem_trailing (s : Str) (c : Char) : Str :=
  (s.reverse.dropWhile (· = c)).reverse

/-- `str_utils.str_rem_ends`: strip leading then trailing copies of `c`. -/
def str_rem_ends (s : Str) (c : Char) : Str :=
  str_rem_trailing (str_rem_preceding s c) c

/-- Python `str.split(c)` for a one-character separator: chunks between
occurrences of `c`, empty chunks included. -/
def splitOnChar (c : Char) : Str → List Str
  | [] => [[]]
  | x :: xs =>
    match splitOnChar c xs with
    | [] => [[]]
    | r :: rs => if x = c then [] :: r :: rs else (x :: r) :: rs

/-- `str_utils.str_join_list` with joining character `c`: starts from the
empty string and appends `c ++ e` for each element, so the result carries a
leading `c` whenever the list is nonempty. -/
def str_join_list (lst : List Str) (c : Char) : Str :=
  lst.foldl (fun a e => a ++ c :: e) []

/-- `str_utils.str_rem_successive`: split on `c`, drop empty chunks, rejoin
with the default single space (the source always joins with `" "`). -/
def str_rem_successive (s : Str) (c : Char) : Str :=
  str_join_list ((splitOnChar c s).filter (fun x => x ≠ [])) ' '

/-- A `PDSAttribute`: `name` and `value` are Python strings or `None`. -/
structure PDSAttribute where
  name : Option Str
  value : Option Str
deriving DecidableEq, Repr

/-- `PDSAttribute.fromstring`: split at the first `=`, trim both ends of
name and value; when the value still contains a `"`, collapse runs of
spaces and re-trim. Without any `=` the null attribute is returned. -/
def PDSAttribute.fromstring (in_str : Str) : PDSAttribute :=
  match pyFind in_str '=' with
  | some as_pos =>
    let name := str_rem_ends (in_str.take as_pos) ' '
    let val0 := str_rem_ends (in_str.drop (as_pos + 1)) ' '
    let val :=
      if '"' ∈ val0 then str_rem_ends (str_rem_successive val0 ' ') ' ' else val0
    ⟨some name, some val⟩
  | none => ⟨none, none⟩

/-- `PDSAttribute.next`: one step of the attribute tokenizer.  The result is
`none` exactly when the Python code raises: the only raising operation is
the character access `in_str[as_pos+2]`, which throws `IndexError` when that
index is past the end.  In the quoted branch, Python computes
`val_beg = in_str.find('"')` (`-1` when absent, making the second search
start at `0`) and `line_end = in_str.find('"', val_beg+1) + 1`, so a missing
closing quote yields `line_end = 0`; likewise a missing `)` in the
parenthesis branch. -/
def PDSAttribute.next (in_str : Str) : Option (PDSAttribute × Str) :=
  match pyFind in_str '\n' with
  | none => some (PDSAttribute.fromstring in_str, [])
  | some nl_pos =>
    let line := in_str.take nl_pos
    match pyFind in_str '=' with
    | none => some (PDSAttribute.fromstring line, in_str.drop (nl_pos + 1))
    | some as_pos =>
      if as_pos < nl_pos then
        match in_str.get? (as_pos + 2) with
        | none => none
        | some ch =>
          if ch = '"' then
            let start := match pyFind in_str '"' with
              | some v => v + 1
              | none => 0
            let line_end := match pyFindFrom in_str '"' start with
              | some q => q + 1
              | none => 0
            some (PDSAttribute.fromstring (in_str.take line_end), in_str.drop line_end)
          else if ch = '(' then
            let line_end := match pyFind in_str ')' with
              | some q => q + 1
              | none => 0
            some (PDSAttribute.fromstring (in_str.take line_end), in_str.drop line_end)
          else
            some (PDSAttribute.fromstring line, in_str.drop (nl_pos + 1))
      else
        some (PDSAttribute.fromstring line, in_str.drop (nl_pos + 1))

/-- `PDSAttribute.valid`: `True` for the `END` sentinel, else both fields
must differ from `None`. -/
def PDSAttribute.valid (a : PDSAttribute) : Bool :=
  if a.name = some "END".toList then true
  else a.name.isSome && a.value.isSome

/-- A node of the parsed label tree.  `attr` nodes are the `PDSAttribute`
instances produced by `fromstring`; `obj` nodes are the `PDSObject`
instances built in `PDSLabel.next` with `name = obj.value` (an optional
string) and a list of children. -/
inductive PDSNode where
  | attr (a : PDSAttribute)
  | obj (name : Option Str) (children : List PDSNode)
deriving Repr

/-- `PDSObject.has_end`'s per-child test: an attribute child named
`END_OBJECT` whose value equals the object's own name.  An object child
never matches, since in Python its list value compares unequal to any
string or `None`. -/
def PDSNode.isEndFor (objName : Option Str) : PDSNode → Bool
  | .attr a => a.name = some "END_OBJECT".toList && a.value = objName
  | .obj _ _ => false

mutual

/-- Node validity: attribute nodes use `PDSAttribute.valid`; object nodes
use `PDSObject.valid`, i.e. every child valid and `has_end`. -/
def PDSNode.valid : PDSNode → Bool
  | .attr a => a.valid
  | .obj name children =>
      PDSNode.allValid children && children.any (PDSNode.isEndFor name)

/-- The `for att in self.value: if not att.valid(): return False` loop of
`PDSObject.valid`. -/
def PDSNode.allValid : List PDSNode → Bool
  | [] => true
  | n :: ns => PDSNode.valid n && PDSNode.allValid ns

end

/-- `PDSObject.get`: the value of the first child that `is_attribute()`
(both fields are strings) and carries the requested name.  Children that
are objects or have a `None` field are skipped. -/
def PDSNode.getOf : List PDSNode → Str → Option Str
  | [], _ => none
  | .attr ⟨some n, some v⟩ :: rest, nm =>
      if n = nm then some v else PDSNode.getOf rest nm
  | _ :: rest, nm => PDSNode.getOf rest nm

/-- `PDSObject.get` dispatch: only objects are searched. -/
def PDSNode.get (n : PDSNode) (nm : Str) : Option Str :=
  match n with
  | .obj _ children => PDSNode.getOf children nm
  | .attr _ => none

/-- `PDSObject.is_object(t)`: the node has a string name and a list value,
and (when `t` is given) its name equals `t`. -/
def PDSNode.isObjectT (t : Option Str) : PDSNode → Bool
  | .obj name _ =>
    (match t with
     | none => name.isSome
     | some tn => name = some tn)
  | .attr _ => false

/-- `PDSObject.is_type(t)`: name equality, for any node. -/
def PDSNode.isType (n : PDSNode) (tn : Str) : Bool :=
  match n with
  | .attr a => a.name = some tn
  | .obj name _ => name = some tn

mutual

/-- `PDSObject.iter_object(t)` as the list of yielded nodes.  A node whose
name is `None` fails `is_object()` and yields nothing.  Note the source
recurses only into children for which `o.is_object(t)` holds. -/
def PDSNode.iterObject (t : Option Str) : PDSNode → List PDSNode
  | .attr _ => []
  | .obj none _ => []
  | .obj (some _) children => PDSNode.iterObjList t children

/-- The body of the `for o in self.value` loop of `PDSObject.iter_object`. -/
def PDSNode.iterObjList (t : Option Str) : List PDSNode → List PDSNode
  | [] => []
  | o :: rest =>
    (if o.isObjectT t then
      (match t with
       | none => [o]
       | some tn => if o.isType tn then [o] else []) ++ PDSNode.iterObject t o
     else []) ++ PDSNode.iterObjList t rest

end

/-- `PDSLabel.iter_object(t)` over the top-level node list: unlike the node
version it tests the bare `is_object()` before dispatching on `t`, and it
recurses into every top-level object via `PDSObject.iter_object`. -/
def labelIterObject (t : Option Str) : List PDSNode → List PDSNode
  | [] => []
  | o :: rest =>
    (if o.isObjectT none then
      (match t with
       | none => [o]
       | some tn => if o.isType tn then [o] else []) ++ o.iterObject t
     else []) ++ labelIterObject t rest

/-- `PDSLabel.iter_column`: all yielded `COLUMN` objects, in document
order. -/
def iter_column (data : List PDSNode) : List PDSNode :=
  labelIterObject (some "COLUMN".toList) data

/-- Outcome of running modelled Python code: a value, an escaped exception,
or an exhausted fuel budget (the run would have continued further). -/
inductive POut (α : Type) where
  | ok (a : α)
  | exn
  | fuel
deriving Repr

/-- Appending to `PDSObject.value` (the `add_attribute` call). -/
def PDSNode.addChild : PDSNode → PDSNode → PDSNode
  | .obj name children, c => .obj name (children ++ [c])
  | n, _ => n

/-- The child-collecting loop of `PDSLabel.next`: children are appended
only when valid; the loop stops when the object becomes valid or the input
is exhausted.  `nextFn` is the recursive `self.next` call of the source,
and `fuel` bounds the number of loop iterations. -/
def objLoop (nextFn : Str → POut (PDSNode × Str)) :
    Nat → PDSNode → Str → POut (PDSNode × Str)
  | fuel, no, s =>
    if no.valid || s.isEmpty then .ok (no, s)
    else
      match fuel with
      | 0 => .fuel
      | fuel + 1 =>
        match nextFn s with
        | .exn => .exn
        | .fuel => .fuel
        | .ok (child, s2) =>
          objLoop nextFn fuel (if child.valid then no.addChild child else no) s2

/-- `PDSLabel.next` with explicit fuel: one attribute step, then — when the
attribute is named `OBJECT` — the `while not no.valid() and len(s)` loop
collecting children into a fresh object whose name is the attribute's
value. -/
def labelNext : Nat → Str → POut (PDSNode × Str)
  | 0 => fun _ => .fuel
  | fuel + 1 => fun s =>
    match PDSAttribute.next s with
    | none => .exn
    | some (a, s1) =>
      if a.name = some "OBJECT".toList then
        objLoop (labelNext fuel) fuel (PDSNode.obj a.value []) s1
      else
        .ok (.attr a, s1)

/-- `PDSLabel.parse`: the `while len(s)` loop, appending each valid parsed
node.  `acc` holds the nodes collected so far, in reverse. -/
def parseGo : Nat → Str → List PDSNode → POut (List PDSNode)
  | 0, _, _ => .fuel
  | fuel + 1, s, acc =>
    if s.isEmpty then .ok acc.reverse
    else
      match labelNext fuel s with
      | .exn => .exn
      | .fuel => .fuel
      | .ok (o, s') => parseGo fuel s' (if o.valid then o :: acc else acc)

/-- `PDSLabel.parse` on a label text. -/
def parseLabel (fuel : Nat) (s : Str) : POut (List PDSNode) :=
  parseGo fuel s []

/-- Model of Python `int(str)`: strip surrounding whitespace, an optional
sign, then a nonempty digit string; anything else raises `ValueError`
(`none`). -/
def pyInt (s : Str) : Option Int :=
  let t := ((s.dropWhile Char.isWhitespace).reverse.dropWhile Char.isWhitespace).reverse
  let (neg, ds) :=
    match t with
    | '-' :: rest => (true, rest)
    | '+' :: rest => (false, rest)
    | _ => (false, t)
  if ds ≠ [] && ds.all Char.isDigit then
    let n := ds.foldl (fun acc c => 10 * acc + (c.toNat - '0'.toNat)) 0
    some (if neg then -(n : Int) else (n : Int))
  else none

/-- A value of the column index map: a single offset or a list of
offsets. -/
inductive ColIdx where
  | scalar (i : Nat)
  | vec (l : List Nat)
deriving DecidableEq, Repr

/-- Python-dict insertion on an association list: replace in place if the
key exists, append otherwise (keys may be `None`). -/
def dictInsert (m : List (Option Str × ColIdx)) (k : Option Str) (v : ColIdx) :
    List (Option Str × ColIdx) :=
  match m with
  | [] => [(k, v)]
  | (k', v') :: rest =>
    if k' = k then (k, v) :: rest else (k', v') :: dictInsert rest k v

/-- Python-dict lookup on an association list. -/
def dictGet (m : List (Option Str × ColIdx)) (k : Option Str) : Option ColIdx :=
  match m with
  | [] => none
  | (k', v') :: rest => if k' = k then some v' else dictGet rest k

/-- The loop body of `PDSLabel.set_column_index_map`.  A column with an
`ITEMS` attribute gets the list `[prev_index + i for i in range(items)]`
and `prev_index` becomes one past the list's last element — Python's
`list[-1]`, which raises `IndexError` on an empty list (`ITEMS ≤ 0`); a
non-integer `ITEMS` raises `ValueError` in `int()`.  A column without
`ITEMS` gets the single offset `prev_index`. -/
def setColumnIndexMapGo :
    List PDSNode → Nat → List (Option Str × ColIdx) → POut (List (Option Str × ColIdx))
  | [], _, m => .ok m
  | o :: rest, prev, m =>
    let temp_name := o.get "NAME".toList
    match o.get "ITEMS".toList with
    | some itemsStr =>
      match pyInt itemsStr with
      | none => .exn
      | some k =>
        let idxList := (List.range k.toNat).map (fun i => prev + i)
        match idxList.getLast? with
        | none => .exn
        | some last => setColumnIndexMapGo rest (1 + last) (dictInsert m temp_name (.vec idxList))
    | none => setColumnIndexMapGo rest (prev + 1) (dictInsert m temp_name (.scalar prev))

/-- `PDSLabel.set_column_index_map`: one left-to-right pass over
`iter_column`, starting from `prev_index = 0` and an empty map. -/
def set_column_index_map (data : List PDSNode) : POut (List (Option Str × ColIdx)) :=
  setColumnIndexMapGo (iter_column data) 0 []

/-- A parsed `PDSLabel`: the node list produced by `parse` and the column
index map produced by `set_column_index_map`. -/
structure PDSLabel where
  data : List PDSNode
  column_index_map : List (Option Str × ColIdx)

/-- `PDSLabel.__init__` from a label text, with parse fuel. -/
def mkLabel (fuel : Nat) (text : Str) : POut PDSLabel :=
  match parseLabel fuel text with
  | .exn => .exn
  | .fuel => .fuel
  | .ok d =>
    match set_column_index_map d with
    | .exn => .exn
    | .fuel => .fuel
    | .ok m => .ok ⟨d, m⟩

/-- `PDSLabel.find_column_by_name`: first column whose `NAME` attribute
value equals `col_name` (`None` compares unequal to any string). -/
def find_column_by_name (label : PDSLabel) (col_name : Str) : Option PDSNode :=
  (iter_column label.data).find? (fun col => col.get "NAME".toList = some col_name)

/-- A float64 cell value: NaN, a signed infinity, or a finite value held
exactly as a rational. -/
inductive F64 where
  | nan
  | inf
  | ninf
  | num (q : ℚ)
deriving DecidableEq, Repr

/-- Digits to a natural number. -/
def digitsVal (ds : Str) : Nat :=
  ds.foldl (fun acc c => 10 * acc + (c.toNat - '0'.toNat)) 0

/-- Model of the external numpy string-to-float64 coercion
(`np.array(s, dtype=np.float64)`): surrounding whitespace, an optional
sign, then either `nan`/`inf`/`infinity` (case-insensitive) or a decimal
number `digits [. digits] [e|E [sign] digits]` with at least one digit;
any other text raises `ValueError` (`none`). -/
def pyParseFloat (s : Str) : Option F64 :=
  let t := ((s.dropWhile Char.isWhitespace).reverse.dropWhile Char.isWhitespace).reverse
  let (neg, u) :=
    match t with
    | '-' :: rest => (true, rest)
    | '+' :: rest => (false, rest)
    | _ => (false, t)
  let low := u.map Char.toLower
  if low = "nan".toList then some .nan
  else if low = "inf".toList || low = "infinity".toList then
    some (if neg then .ninf else .inf)
  else
    let ip := u.takeWhile Char.isDigit
    let r1 := u.dropWhile Char.isDigit
    let (fp, r2) :=
      match r1 with
      | '.' :: rest => (rest.takeWhile Char.isDigit, rest.dropWhile Char.isDigit)
      | _ => ([], r1)
    if ip = [] && fp = [] then none
    else
      let mantissa : ℚ :=
        (digitsVal ip : ℚ) + (digitsVal fp : ℚ) / ((10 : ℚ) ^ fp.length)
      match r2 with
      | [] => some (.num (if neg then -mantissa else mantissa))
      | e :: rest =>
        if e = 'e' || e = 'E' then
          let (eneg, eds) :=
            match rest with
            | '-' :: r => (true, r)
            | '+' :: r => (false, r)
            | _ => (false, rest)
          if eds ≠ [] && eds.all Char.isDigit then
            let ev : ℤ := if eneg then -(digitsVal eds : ℤ) else (digitsVal eds : ℤ)
            let v : ℚ := mantissa * (10 : ℚ) ^ ev
            some (.num (if neg then -v else v))
          else none
        else none

/-- Model of the external numpy string-to-int32 coercion
(`np.array(s, dtype=np.intc)`): surrounding whitespace, optional sign,
nonempty digits, and the value must fit a 32-bit signed integer
(`OverflowError` otherwise); any other text raises (`none`). -/
def pyParseIntC (s : Str) : Option Int :=
  match pyInt s with
  | none => none
  | some v => if -(2 ^ 31) ≤ v && v < 2 ^ 31 then some v else none

/-- Gregorian leap year. -/
def isLeap (y : Nat) : Bool :=
  y % 4 = 0 && (y % 100 ≠ 0 || y % 400 = 0)

/-- Days in a month of the proleptic Gregorian calendar. -/
def daysInMonth (y m : Nat) : Nat :=
  if m = 2 then (if isLeap y then 29 else 28)
  else if m = 4 || m = 6 || m = 9 || m = 11 then 30
  else 31

/-- Days from 1970-01-01 to year `y`, month `m`, day `d` (civil-days
algorithm over truncating integer division). -/
def daysFromCivil (y : Int) (m d : Nat) : Int :=
  let y' := if m ≤ 2 then y - 1 else y
  let era := (if 0 ≤ y' then y' else y' - 399) / 400
  let yoe := y' - era * 400
  let mp := (m + 9) % 12
  let doy := (153 * mp + 2) / 5 + d - 1
  let doe := yoe * 365 + yoe / 4 - yoe / 100 + (doy : Int)
  era * 146097 + doe - 719468

/-- Parse one calendar field the way `strptime`'s regexes do: prefer two
digits when they form a value in `[lo, hi]`, fall back to a single digit.
Returns the value and the rest of the string. -/
def parseField (lo hi : Nat) : Str → Option (Nat × Str)
  | c1 :: c2 :: rest =>
    if c1.isDigit && c2.isDigit &&
        lo ≤ digitsVal [c1, c2] && digitsVal [c1, c2] ≤ hi then
      some (digitsVal [c1, c2], rest)
    else if c1.isDigit && lo ≤ digitsVal [c1] && digitsVal [c1] ≤ hi then
      some (digitsVal [c1], c2 :: rest)
    else none
  | [c1] =>
    if c1.isDigit && lo ≤ digitsVal [c1] && digitsVal [c1] ≤ hi then
      some (digitsVal [c1], [])
    else none
  | [] => none

/-- Expect a literal character. -/
def expectChar (c : Char) : Str → Option Str
  | x :: rest => if x = c then some rest else none
  | [] => none

/-- A literal separator followed by a calendar field. -/
def parseFieldAfter (lo hi : Nat) (c : Char) (s : Option (Nat × Str)) :
    Option (Nat × Str) :=
  match s with
  | none => none
  | some (_, rest) =>
    match expectChar c rest with
    | none => none
    | some rest' => parseField lo hi rest'

/-- Seconds between the epoch and a parsed timestamp, as an exact
rational: `(dt - epoch).total_seconds()`. -/
def epochSeconds (y mo d h mi sec micro : Nat) : ℚ :=
  (daysFromCivil (y : Int) mo d : ℚ) * 86400 + (h : ℚ) * 3600 + (mi : ℚ) * 60
    + (sec : ℚ) + (micro : ℚ) / 1000000

/-- Model of the external
`datetime.datetime.strptime(s, "%Y-%m-%dT%H:%M:%S.%fZ")` followed by
subtraction of the epoch `1970-01-01` and `total_seconds()`: a 4-digit
year, calendar-checked month/day, `T`, clock fields (strptime admits
seconds up to 61 but the datetime constructor then rejects 60 and 61), a
1-6 digit fraction scaled to microseconds, a literal `Z`, and nothing
after it.  A mismatch raises `ValueError` (`none`). -/
def strptimePDS (s : Str) : Option ℚ :=
  let y4 := s.take 4
  if y4.length = 4 && y4.all Char.isDigit then
    let y := digitsVal y4
    match parseFieldAfter 1 12 '-' (some (0, s.drop 4)) with
    | none => none
    | some (mo, s1) =>
      match parseFieldAfter 1 31 '-' (some (0, s1)) with
      | none => none
      | some (d, s2) =>
        if d ≤ daysInMonth y mo then
          match parseFieldAfter 0 23 'T' (some (0, s2)) with
          | none => none
          | some (h, s3) =>
            match parseFieldAfter 0 59 ':' (some (0, s3)) with
            | none => none
            | some (mi, s4) =>
              match parseFieldAfter 0 61 ':' (some (0, s4)) with
              | none => none
              | some (sec, s5) =>
                if sec ≤ 59 then
                  match expectChar '.' s5 with
                  | none => none
                  | some s6 =>
                    let fds := (s6.takeWhile Char.isDigit).take 6
                    if fds = [] then none
                    else
                      let micro := digitsVal fds * 10 ^ (6 - fds.length)
                      match expectChar 'Z' (s6.drop fds.length) with
                      | none => none
                      | some s7 =>
                        if s7 = [] then some (epochSeconds y mo d h mi sec micro)
                        else none
                else none
        else none
  else none

/-- `PDSDataset.datetime_str_to_float` with the default scheme: the bare
`except` returns `None` on any parse failure; otherwise the seconds since
the epoch. -/
def datetime_str_to_float (dt_str : Str) : Option ℚ :=
  strptimePDS dt_str

/-- `PDSDataset.load_data`: split the file content on newlines, keep
nonempty lines, split each on the separator and drop empty fields. -/
def load_data (content : Str) (sep : Char) : List (List Str) :=
  ((splitOnChar '\n' content).filter (fun l => l ≠ [])).map
    (fun l => (splitOnChar sep l).filter (fun f => f ≠ []))

/-- A `PDSDataset`: the loaded raw table and the parsed label. -/
structure PDSDataset where
  data : List (List Str)
  label_data : PDSLabel

/-- `PDSDataset.__init__` from a label text and a table text. -/
def mkDataset (fuel : Nat) (labelText tableText : Str) (sep : Char) :
    POut PDSDataset :=
  match mkLabel fuel labelText with
  | .exn => .exn
  | .fuel => .fuel
  | .ok lbl => .ok ⟨load_data tableText sep, lbl⟩

/-- Numpy column slice `self.data[:, i]` of the object array built by
`load_data`: when every row has the same length and `i` is in range the
slice is the list of `i`-th fields; a jagged table (1-D object array) or
an out-of-range index raises `IndexError`. -/
def npCol (data : List (List Str)) (i : Nat) : POut (List Str) :=
  match data with
  | [] => .exn
  | r0 :: rest =>
    if rest.all (fun r => r.length = r0.length) && i < r0.length then
      .ok (data.map (fun r => r.getD i []))
    else .exn

/-- Numpy fancy indexing `self.data[:, idxs]` with a list of offsets. -/
def npCols (data : List (List Str)) (idxs : List Nat) : POut (List (List Str)) :=
  match data with
  | [] => .exn
  | r0 :: rest =>
    if rest.all (fun r => r.length = r0.length) && idxs.all (fun i => i < r0.length) then
      .ok (data.map (fun r => idxs.map (fun i => r.getD i [])))
    else .exn

/-- `PDSDataset.column_index`: the dict lookup
`self.label_data.column_index_map[col_name]`; a missing key raises
`KeyError`.  (The scan after the `return` in the source is dead code.) -/
def column_index (ds : PDSDataset) (col_name : Str) : POut ColIdx :=
  match dictGet ds.label_data.column_index_map (some col_name) with
  | some ci => .ok ci
  | none => .exn

/-- The recognized column datatypes (`np.float64`, `np.intc`, `"TIME"`). -/
inductive DKind where
  | f64
  | i32
  | time
deriving DecidableEq, Repr

/-- `PDSDataset.column_datatype`: look the column up by name (an absent
column makes `col.get` raise `AttributeError` on `None`), read its
`DATA_TYPE` (an absent attribute makes `None.replace` raise), delete every
`"` from the tag and map it; an unrecognized tag prints a warning and
falls through returning `None`. -/
def column_datatype (label : PDSLabel) (col_name : Str) : POut (Option DKind) :=
  match find_column_by_name label col_name with
  | none => .exn
  | some col =>
    match col.get "DATA_TYPE".toList with
    | none => .exn
    | some dt =>
      let dt_str := dt.filter (fun c => c ≠ '"')
      if dt_str = "ASCII_REAL".toList then .ok (some .f64)
      else if dt_str = "ASCII_INTEGER".toList then .ok (some .i32)
      else if dt_str = "TIME".toList then .ok (some .time)
      else .ok none

/-- The result of `PDSDataset.column_data`: a typed 1-D or 2-D array, or
the raw string slice when the datatype is unrecognized. -/
inductive ColData where
  | floats (xs : List F64)
  | ints (xs : List Int)
  | floats2 (xss : List (List F64))
  | ints2 (xss : List (List Int))
  | raw (xs : List Str)
  | raw2 (xss : List (List Str))
deriving Repr

/-- `np.array(t, dtype=np.float64)` over the list built in the `TIME`
branch: a `None` entry becomes NaN. -/
def optF64 : Option ℚ → F64
  | none => .nan
  | some q => .num q

/-- Whether `np.array(field, dtype=dk)` succeeds, for the per-field
`try`/`except` of the numeric loop. -/
def coerceOk (dk : DKind) (f : Str) : Bool :=
  match dk with
  | .f64 => (pyParseFloat f).isSome
  | .i32 => (pyParseIntC f).isSome
  | .time => false

/-- Final `np.array(temp_data, dtype=np.float64)`: every field must
coerce, else `ValueError` escapes. -/
def npToFloats (xs : List Str) : POut (List F64) :=
  match xs with
  | [] => .ok []
  | f :: rest =>
    match pyParseFloat f with
    | none => .exn
    | some v =>
      match npToFloats rest with
      | .ok vs => .ok (v :: vs)
      | .exn => .exn
      | .fuel => .fuel

/-- Final `np.array(temp_data, dtype=np.intc)`. -/
def npToInts (xs : List Str) : POut (List Int) :=
  match xs with
  | [] => .ok []
  | f :: rest =>
    match pyParseIntC f with
    | none => .exn
    | some v =>
      match npToInts rest with
      | .ok vs => .ok (v :: vs)
      | .exn => .exn
      | .fuel => .fuel

/-- The per-field replacement of the numeric loop: a field equal to the
missing constant becomes `"nan"` first, then a field that still fails
coercion becomes `"nan"` too (with a printed report). -/
def numericFix (dk : DKind) (mc : Option Str) (f : Str) : Str :=
  let f1 := if some f = mc then "nan".toList else f
  if coerceOk dk f1 then f1 else "nan".toList

/-- Typed conversion of a 1-D slice after the numeric loop. -/
def finalConvert (dk : DKind) (xs : List Str) : POut ColData :=
  match dk with
  | .f64 =>
    match npToFloats xs with
    | .ok vs => .ok (.floats vs)
    | .exn => .exn
    | .fuel => .fuel
  | .i32 =>
    match npToInts xs with
    | .ok vs => .ok (.ints vs)
    | .exn => .exn
    | .fuel => .fuel
  | .time => .exn

/-- Typed conversion of a 2-D slice (vector column); the numeric loop is
skipped because `temp_data.shape` has length 2. -/
def finalConvert2 (dk : DKind) (xss : List (List Str)) : POut ColData :=
  match dk with
  | .f64 =>
    match xss.foldr
        (fun row acc =>
          match acc, npToFloats row with
          | .ok rs, .ok r => .ok (r :: rs)
          | .fuel, _ => POut.fuel
          | _, _ => .exn) (POut.ok []) with
    | .ok rs => .ok (.floats2 rs)
    | .exn => .exn
    | .fuel => .fuel
  | .i32 =>
    match xss.foldr
        (fun row acc =>
          match acc, npToInts row with
          | .ok rs, .ok r => .ok (r :: rs)
          | .fuel, _ => POut.fuel
          | _, _ => .exn) (POut.ok []) with
    | .ok rs => .ok (.ints2 rs)
    | .exn => .exn
    | .fuel => .fuel
  | .time => .exn

/-- `PDSDataset.column_data`.  `TIME` columns map each raw field through
`datetime_str_to_float` (a vector `TIME` slice hands numpy row arrays to
`strptime`, whose `TypeError` the bare `except` turns into `None`, hence
all-NaN).  Numeric columns run the missing-constant/coercion loop on a 1-D
slice, then convert with the column's dtype.  An unrecognized datatype
returns the raw slice. -/
def column_data (ds : PDSDataset) (col_name : Str) : POut ColData :=
  match column_datatype ds.label_data col_name with
  | .exn => .exn
  | .fuel => .fuel
  | .ok dt =>
    if dt = some DKind.time then
      match column_index ds col_name with
      | .exn => .exn
      | .fuel => .fuel
      | .ok (.scalar i) =>
        match npCol ds.data i with
        | .ok fields =>
          .ok (.floats (fields.map (fun f => optF64 (datetime_str_to_float f))))
        | .exn => .exn
        | .fuel => .fuel
      | .ok (.vec l) =>
        match npCols ds.data l with
        | .ok rows => .ok (.floats (rows.map (fun _ => F64.nan)))
        | .exn => .exn
        | .fuel => .fuel
    else
      match dt with
      | some dk =>
        match find_column_by_name ds.label_data col_name with
        | none => .exn
        | some col =>
          let mc := col.get "MISSING_CONSTANT".toList
          match column_index ds col_name with
          | .exn => .exn
          | .fuel => .fuel
          | .ok (.scalar i) =>
            match npCol ds.data i with
            | .ok fields => finalConvert dk (fields.map (numericFix dk mc))
            | .exn => .exn
            | .fuel => .fuel
          | .ok (.vec l) =>
            match npCols ds.data l with
            | .ok rows => finalConvert2 dk rows
            | .exn => .exn
            | .fuel => .fuel
      | none =>
        match column_index ds col_name with
        | .exn => .exn
        | .fuel => .fuel
        | .ok (.scalar i) =>
          match npCol ds.data i with
          | .ok fields => .ok (.raw fields)
          | .exn => .exn
          | .fuel => .fuel
        | .ok (.vec l) =>
          match npCols ds.data l with
          | .ok rows => .ok (.raw2 rows)
          | .exn => .exn
          | .fuel => .fuel

/-- `PDSDataset.column_names`: the `NAME` value of each column, in
document order (`None` when absent). -/
def column_names (ds : PDSDataset) : List (Option Str) :=
  (iter_column ds.label_data.data).map (fun c => c.get "NAME".toList)

/-- Case-insensitive `"time" in c.lower()`: the substring test of
`time_column_name`. -/
def containsSub (pat : Str) : Str → Bool
  | [] => pat = []
  | c :: rest => pat.isPrefixOf (c :: rest) || containsSub pat rest

/-- `PDSDataset.time_column_name`: the first column name containing
`"time"` case-insensitively; a `None` name raises `AttributeError` on
`None.lower()`; no match returns `None`. -/
def time_column_nameGo : List (Option Str) → POut (Option Str)
  | [] => .ok none
  | none :: _ => .exn
  | some nm :: rest =>
    if containsSub "time".toList (nm.map Char.toLower) then .ok (some nm)
    else time_column_nameGo rest

/-- `PDSDataset.time_column_name` on a dataset. -/
def time_column_name (ds : PDSDataset) : POut (Option Str) :=
  time_column_nameGo (column_names ds)

/-- `PDSDataset.time_data`: when no time column exists the source executes
`np.array()` — numpy raises `TypeError` because the `object` argument is
missing — otherwise the column data of the found column. -/
def time_data (ds : PDSDataset) : POut ColData :=
  match time_column_name ds with
  | .exn => .exn
  | .fuel => .fuel
  | .ok none => .exn
  | .ok (some c) => column_data ds c

/-! ### Specification-side helpers and concrete fixtures -/

/-- The in-range condition for the one raising character access of the
attribute tokenizer: whenever the first assignment sits before the first
newline, the index `as_pos + 2` must stay inside the string. -/
def safeIndex (s : Str) : Bool :=
  match pyFind s '\n', pyFind s '=' with
  | some nl, some as => if as < nl then decide (as + 2 < s.length) else true
  | _, _ => true

/-- Whether the last child is the matching `END_OBJECT` attribute — the
"trailing" reading of claim C8. -/
def hasTrailingEnd (name : Option Str) (children : List PDSNode) : Bool :=
  match children.getLast? with
  | none => false
  | some c => c.isEndFor name

/-- The claimed per-field behaviour of the numeric branch of
`column_data` on a float column: a field equal to the missing constant
becomes NaN, a field that fails coercion becomes NaN, every other field
keeps its parsed value. -/
def specNumericF64 (mc : Option Str) (f : Str) : F64 :=
  if some f = mc then .nan else (pyParseFloat f).getD .nan

/-- The claimed assignment for a run of scalar columns starting at offset
`prev`: consecutive offsets in document order. -/
def scalarAssign (prev : Nat) : List PDSNode → List (Option Str × ColIdx)
  | [] => []
  | c :: rest => (c.get "NAME".toList, .scalar prev) :: scalarAssign (prev + 1) rest

/-- A line whose assignment character is immediately followed by the final
newline: `in_str[as_pos + 2]` is out of range. -/
def badAssign : Str := "A=\n".toList

/-- A quoted value with no closing quote: `line_end` becomes `0` and the
tokenizer returns the input unchanged. -/
def badQuote : Str := "A = \"x\nB = 1\n".toList

/-- A quoted value spanning a newline, with a doubled space inside. -/
def descInput : Str := "DESC = \"line  one\nline two\"\nNEXT = 1\n".toList

/-- The value produced for `descInput`: quotes kept, the space run
collapsed, the embedded newline preserved. -/
def descValue : Str := "\"line one\nline two\"".toList

/-- Label text with one `ASCII_REAL` column `A` carrying
`MISSING_CONSTANT = -9999`. -/
def lblRealText : Str :=
  "OBJECT = COLUMN\nNAME = A\nDATA_TYPE = ASCII_REAL\nMISSING_CONSTANT = -9999\nEND_OBJECT = COLUMN\n".toList

/-- The column node `parse` produces for `lblRealText`. -/
def realCol : PDSNode :=
  .obj (some "COLUMN".toList)
    [.attr ⟨some "NAME".toList, some "A".toList⟩,
     .attr ⟨some "DATA_TYPE".toList, some "ASCII_REAL".toList⟩,
     .attr ⟨some "MISSING_CONSTANT".toList, some "-9999".toList⟩,
     .attr ⟨some "END_OBJECT".toList, some "COLUMN".toList⟩]

/-- The label built from `lblRealText`. -/
def realLabel : PDSLabel := ⟨[realCol], [(some "A".toList, ColIdx.scalar 0)]⟩

/-- A dataset over `realLabel` with a missing field and a junk field. -/
def dsReal : PDSDataset :=
  ⟨[["1.5".toList], ["-9999".toList], ["xyz".toList]], realLabel⟩

/-- A dataset over `realLabel` with no column whose name contains
`"time"`. -/
def dsNoTime : PDSDataset := ⟨[["1.5".toList]], realLabel⟩

/-- Label text with one `ASCII_INTEGER` column `B` carrying
`MISSING_CONSTANT = -9999`. -/
def lblIntText : Str :=
  "OBJECT = COLUMN\nNAME = B\nDATA_TYPE = ASCII_INTEGER\nMISSING_CONSTANT = -9999\nEND_OBJECT = COLUMN\n".toList

/-- The column node `parse` produces for `lblIntText`. -/
def intCol : PDSNode :=
  .obj (some "COLUMN".toList)
    [.attr ⟨some "NAME".toList, some "B".toList⟩,
     .attr ⟨some "DATA_TYPE".toList, some "ASCII_INTEGER".toList⟩,
     .attr ⟨some "MISSING_CONSTANT".toList, some "-9999".toList⟩,
     .attr ⟨some "END_OBJECT".toList, some "COLUMN".toList⟩]

/-- The label built from `lblIntText`. -/
def intLabel : PDSLabel := ⟨[intCol], [(some "B".toList, ColIdx.scalar 0)]⟩

/-- A dataset over `intLabel` whose second row holds the missing
constant. -/
def dsInt : PDSDataset := ⟨[["1".toList], ["-9999".toList]], intLabel⟩

/-- Label text with one `TIME` column named `Time`. -/
def lblTimeText : Str :=
  "OBJECT = COLUMN\nNAME = Time\nDATA_TYPE = TIME\nEND_OBJECT = COLUMN\n".toList

/-- The column node `parse` produces for `lblTimeText`. -/
def timeCol : PDSNode :=
  .obj (some "COLUMN".toList)
    [.attr ⟨some "NAME".toList, some "Time".toList⟩,
     .attr ⟨some "DATA_TYPE".toList, some "TIME".toList⟩,
     .attr ⟨some "END_OBJECT".toList, some "COLUMN".toList⟩]

/-- The label built from `lblTimeText`. -/
def timeLabel : PDSLabel := ⟨[timeCol], [(some "Time".toList, ColIdx.scalar 0)]⟩

/-- A dataset over `timeLabel` with one parseable and one unparseable
timestamp. -/
def dsTime : PDSDataset :=
  ⟨[["2020-01-01T00:00:00.000Z".toList], ["not-a-date".toList]], timeLabel⟩

/-- Label text whose single column lacks a `DATA_TYPE` attribute. -/
def lblNoDTText : Str := "OBJECT = COLUMN\nNAME = A\nEND_OBJECT = COLUMN\n".toList

/-- The column node `parse` produces for `lblNoDTText`. -/
def noDTCol : PDSNode :=
  .obj (some "COLUMN".toList)
    [.attr ⟨some "NAME".toList, some "A".toList⟩,
     .attr ⟨some "END_OBJECT".toList, some "COLUMN".toList⟩]

/-- The label built from `lblNoDTText`. -/
def noDTLabel : PDSLabel := ⟨[noDTCol], [(some "A".toList, ColIdx.scalar 0)]⟩

/-- Label text whose column `NAME` and `DATA_TYPE` values are quoted. -/
def lblQText : Str :=
  "OBJECT = COLUMN\nNAME = \"Time\"\nDATA_TYPE = \"TIME\"\nEND_OBJECT = COLUMN\n".toList

/-- The column node `parse` produces for `lblQText`: the quote characters
stay inside the attribute values. -/
def qCol : PDSNode :=
  .obj (some "COLUMN".toList)
    [.attr ⟨some "NAME".toList, some "\"Time\"".toList⟩,
     .attr ⟨some "DATA_TYPE".toList, some "\"TIME\"".toList⟩,
     .attr ⟨some "END_OBJECT".toList, some "COLUMN".toList⟩]

/-- The label built from `lblQText`. -/
def qLabel : PDSLabel := ⟨[qCol], [(some "\"Time\"".toList, ColIdx.scalar 0)]⟩

/-- Label text with two scalar columns, then a vector column with
`ITEMS = 3`, then another scalar column. -/
def lblVText : Str :=
  ("OBJECT = COLUMN\nNAME = S1\nEND_OBJECT = COLUMN\n" ++
   "OBJECT = COLUMN\nNAME = S2\nEND_OBJECT = COLUMN\n" ++
   "OBJECT = COLUMN\nNAME = V\nITEMS = 3\nEND_OBJECT = COLUMN\n" ++
   "OBJECT = COLUMN\nNAME = S3\nEND_OBJECT = COLUMN\n").toList

/-- Label text with a single column declaring `ITEMS = 0`. -/
def lblZText : Str := "OBJECT = COLUMN\nNAME = Z\nITEMS = 0\nEND_OBJECT = COLUMN\n".toList

/-- The column node `parse` produces for `lblZText`. -/
def zCol : PDSNode :=
  .obj (some "COLUMN".toList)
    [.attr ⟨some "NAME".toList, some "Z".toList⟩,
     .attr ⟨some "ITEMS".toList, some "0".toList⟩,
     .attr ⟨some "END_OBJECT".toList, some "COLUMN".toList⟩]

/-- Label text with a vector (`ITEMS = 2`) `ASCII_REAL` column `W`
carrying `MISSING_CONSTANT = -9999`. -/
def lblVecRealText : Str :=
  "OBJECT = COLUMN\nNAME = W\nDATA_TYPE = ASCII_REAL\nMISSING_CONSTANT = -9999\nITEMS = 2\nEND_OBJECT = COLUMN\n".toList

/-- The column node `parse` produces for `lblVecRealText`. -/
def vecRealCol : PDSNode :=
  .obj (some "COLUMN".toList)
    [.attr ⟨some "NAME".toList, some "W".toList⟩,
     .attr ⟨some "DATA_TYPE".toList, some "ASCII_REAL".toList⟩,
     .attr ⟨some "MISSING_CONSTANT".toList, some "-9999".toList⟩,
     .attr ⟨some "ITEMS".toList, some "2".toList⟩,
     .attr ⟨some "END_OBJECT".toList, some "COLUMN".toList⟩]

/-- The label built from `lblVecRealText`. -/
def vecRealLabel : PDSLabel := ⟨[vecRealCol], [(some "W".toList, ColIdx.vec [0, 1])]⟩

/-- A dataset over `vecRealLabel` whose row starts with the missing
constant. -/
def dsVecReal : PDSDataset := ⟨[["-9999".toList, "1".toList]], vecRealLabel⟩

/-! ### Lemmas about the string primitives -/

theorem pyFind_lt_length {s : Str} {c : Char} {i : Nat} (h : pyFind s c = some i) :
    i < s.length := by
  induction s generalizing i with
  | nil => simp [pyFind] at h
  | cons x xs ih =>
    simp only [pyFind] at h
    by_cases hx : x = c
    · simp only [if_pos hx, Option.some.injEq] at h
      simp only [List.length_cons]
      omega
    · simp only [if_neg hx, Option.map_eq_some'] at h
      obtain ⟨j, hj, rfl⟩ := h
      have := ih hj
      simp only [List.length_cons]
      omega

theorem pyFindFrom_lt_length {s : Str} {c : Char} {start i : Nat}
    (h : pyFindFrom s c start = some i) : i < s.length ∧ start ≤ i := by
  simp only [pyFindFrom, Option.map_eq_some'] at h
  obtain ⟨j, hj, rfl⟩ := h
  have hlt := pyFind_lt_length hj
  simp only [List.length_drop] at hlt
  omega

theorem drop_length_lt {s : Str} {n : Nat} (hn : 0 < n) (hs : s ≠ []) :
    (s.drop n).length < s.length := by
  simp only [List.length_drop]
  have : 0 < s.length := List.length_pos.mpr hs
  omega

/-- Every successful step of the attribute tokenizer either strictly
shrinks the remaining input or returns it untouched together with the
null attribute (the unclosed-delimiter branches, where `line_end = 0`). -/
theorem next_consumes_or_stuck (s : Str) (a : PDSAttribute) (s' : Str)
    (h : PDSAttribute.next s = some (a, s')) :
    s'.length < s.length ∨ (s' = s ∧ a = ⟨none, none⟩) := by
  unfold PDSAttribute.next at h
  rcases hnl : pyFind s '\n' with _ | nl
  · simp only [hnl, Option.some.injEq, Prod.mk.injEq] at h
    obtain ⟨ha, hs'⟩ := h
    rcases s with _ | ⟨x, xs⟩
    · right
      exact ⟨hs'.symm, by rw [← ha]; rfl⟩
    · left
      rw [← hs']
      simp
  · simp only [hnl] at h
    have hpos : s ≠ [] := by
      have := pyFind_lt_length hnl
      intro hcon
      subst hcon
      simp at this
    rcases has : pyFind s '=' with _ | as
    · simp only [has, Option.some.injEq, Prod.mk.injEq] at h
      left
      rw [← h.2]
      exact drop_length_lt (Nat.succ_pos nl) hpos
    · simp only [has] at h
      by_cases hlt : as < nl
      · rw [if_pos hlt] at h
        rcases hch : s.get? (as + 2) with _ | ch
        · rw [hch] at h
          exact absurd h (by simp)
        · simp only [hch] at h
          by_cases hq : ch = '"'
          · rw [if_pos hq] at h
            rcases hvb : pyFind s '"' with _ | vb
            · simp only [hvb] at h
              rcases hq2 : pyFindFrom s '"' 0 with _ | q
              · simp only [hq2, Option.some.injEq, Prod.mk.injEq] at h
                right
                exact ⟨h.2.symm, by rw [← h.1]; rfl⟩
              · simp only [hq2, Option.some.injEq, Prod.mk.injEq] at h
                left
                rw [← h.2]
                exact drop_length_lt (Nat.succ_pos q) hpos
            · simp only [hvb] at h
              rcases hq2 : pyFindFrom s '"' (vb + 1) with _ | q
              · simp only [hq2, Option.some.injEq, Prod.mk.injEq] at h
                right
                exact ⟨h.2.symm, by rw [← h.1]; rfl⟩
              · simp only [hq2, Option.some.injEq, Prod.mk.injEq] at h
                left
                rw [← h.2]
                exact drop_length_lt (Nat.succ_pos q) hpos
          · rw [if_neg hq] at h
            by_cases hp : ch = '('
            · rw [if_pos hp] at h
              rcases hcp : pyFind s ')' with _ | q
              · simp only [hcp, Option.some.injEq, Prod.mk.injEq] at h
                right
                exact ⟨h.2.symm, by rw [← h.1]; rfl⟩
              · simp only [hcp, Option.some.injEq, Prod.mk.injEq] at h
                left
                rw [← h.2]
                exact drop_length_lt (Nat.succ_pos q) hpos
            · rw [if_neg hp] at h
              simp only [Option.some.injEq, Prod.mk.injEq] at h
              left
              rw [← h.2]
              exact drop_length_lt (Nat.succ_pos nl) hpos
      · rw [if_neg hlt] at h
        simp only [Option.some.injEq, Prod.mk.injEq] at h
        left
        rw [← h.2]
        exact drop_length_lt (Nat.succ_pos nl) hpos

/-- One unfolding of the `while len(s)` loop when the tokenizer is stuck:
the invalid null attribute is not appended and the cursor does not move. -/
theorem parseGo_stuck_step (f : Nat) (s : Str) (acc : List PDSNode)
    (hne : s.isEmpty = false) (h : labelNext f s = .ok (.attr ⟨none, none⟩, s)) :
    parseGo (f + 1) s acc = parseGo f s acc := by
  have step : parseGo (f + 1) s acc =
      (if s.isEmpty then .ok acc.reverse
       else
        match labelNext f s with
        | .exn => .exn
        | .fuel => .fuel
        | .ok (o, s') => parseGo f s' (if o.valid then o :: acc else acc)) := rfl
  rw [step, if_neg (by simp [hne]), h]
  rfl

/-- When the tokenizer makes no progress on a nonempty input, label
parsing never finishes, whatever the fuel. -/
theorem parse_stuck_diverges (s : Str) (hne : s ≠ [])
    (h : PDSAttribute.next s = some (⟨none, none⟩, s)) :
    ∀ fuel acc, parseGo fuel s acc = POut.fuel := by
  intro fuel
  induction fuel with
  | zero => intro acc; rfl
  | succ f ih =>
    intro acc
    have hsE : s.isEmpty = false := by
      cases s
      · exact absurd rfl hne
      · rfl
    cases f with
    | zero => simp [parseGo, hsE, labelNext]
    | succ f' =>
      have hln : labelNext (f' + 1) s = .ok (.attr ⟨none, none⟩, s) := by
        simp [labelNext, h]
      rw [parseGo_stuck_step (f' + 1) s acc hsE hln]
      exact ih _

/-- The attribute tokenizer succeeds whenever the raising character access
`in_str[as_pos + 2]` is in range. -/
theorem next_total (s : Str) (hsafe : safeIndex s = true) :
    (PDSAttribute.next s).isSome := by
  unfold PDSAttribute.next
  rcases hnl : pyFind s '\n' with _ | nl
  · rfl
  · simp only [hnl]
    rcases has : pyFind s '=' with _ | as
    · simp
    · simp only [has]
      by_cases hlt : as < nl
      · rw [if_pos hlt]
        have h2 : as + 2 < s.length := by
          unfold safeIndex at hsafe
          simp only [hnl, has] at hsafe
          rw [if_pos hlt] at hsafe
          exact of_decide_eq_true hsafe
        rcases hch : s.get? (as + 2) with _ | ch
        · exfalso
          have := List.get?_eq_none.mp hch
          omega
        · simp only [hch]
          by_cases hq : ch = '"'
          · rw [if_pos hq]
            rcases hvb : pyFind s '"' with _ | vb
            · simp only [hvb]
              rcases hk : pyFindFrom s '"' 0 with _ | q <;> simp [hk]
            · simp only [hvb]
              rcases hk : pyFindFrom s '"' (vb + 1) with _ | q <;> simp [hk]
          · rw [if_neg hq]
            by_cases hp : ch = '('
            · rw [if_pos hp]
              rcases hk : pyFind s ')' with _ | q <;> simp [hk]
            · rw [if_neg hp]
              simp
      · rw [if_neg hlt]
        simp

/-- C2 (amended): the attribute parser raises no exception on any input in
which the character two places after an assignment occurring before the
first newline still lies inside the string — the only raising operation is
that character access, so on such inputs every malformed line just yields
an attribute with `value = None` that `valid()` filters out (an input
without `=` produces the invalid null attribute). -/
theorem claim_C2_no_exception :
    (∀ s : Str, safeIndex s = true → (PDSAttribute.next s).isSome) ∧
    (∀ s : Str, pyFind s '=' = none → (PDSAttribute.fromstring s).valid = false) := by
  refine ⟨next_total, ?_⟩
  intro s h
  simp [PDSAttribute.fromstring, h, PDSAttribute.valid]

/-- C2 witness: the amended theorem applied to the well-formed line
`A = B\n`, whose tokenizer step succeeds. -/
theorem claim_C2_witness : (PDSAttribute.next "A = B\n".toList).isSome :=
  claim_C2_no_exception.1 "A = B\n".toList (by decide)

/-- C2 counterexample: on `"A=\n"` the character access `in_str[as_pos+2]`
raises `IndexError` (the modelled tokenizer returns `none`), so the claim
that no input makes the attribute parser raise is false. -/
theorem claim_C2_counterexample : PDSAttribute.next badAssign = none := rfl

/-- C3 (amended): label parsing consumes input strictly at every tokenizer
step except when a quoted or parenthesized value lacks its closing
delimiter; in that case the step returns the input unchanged with the
invalid null attribute, and the parse loop then never terminates (it
exhausts any fuel budget).  So parsing terminates on inputs whose steps
all strictly consume, but not on the malformed unclosed-delimiter inputs
named by the claim. -/
theorem claim_C3_parse_termination :
    (∀ s a s', PDSAttribute.next s = some (a, s') →
      s'.length < s.length ∨ (s' = s ∧ a = ⟨none, none⟩)) ∧
    (∀ s : Str, s ≠ [] → PDSAttribute.next s = some (⟨none, none⟩, s) →
      ∀ fuel acc, parseGo fuel s acc = POut.fuel) :=
  ⟨next_consumes_or_stuck, parse_stuck_diverges⟩

/-- C3 witness: one tokenizer step on `A = 1\nB = 1\n` consumes the first
line, and the stuck input `badQuote` makes the parse loop exhaust a fuel
of 5. -/
theorem claim_C3_witness :
    ("B = 1\n".toList.length < "A = 1\nB = 1\n".toList.length ∨
      ("B = 1\n".toList = "A = 1\nB = 1\n".toList ∧
        PDSAttribute.mk (some "A".toList) (some "1".toList) = ⟨none, none⟩)) ∧
    parseGo 5 badQuote [] = POut.fuel :=
  ⟨claim_C3_parse_termination.1 "A = 1\nB = 1\n".toList _ _ rfl,
   claim_C3_parse_termination.2 badQuote (by decide) rfl 5 []⟩

/-- C3 counterexample: on the unclosed-quote input the tokenizer returns
the whole input unchanged — it does not strictly consume — and
`PDSLabel.parse` still has not finished after 1000 iterations of fuel, so
the claim that parsing terminates on such inputs is false. -/
theorem claim_C3_counterexample :
    PDSAttribute.next badQuote = some (⟨none, none⟩, badQuote) ∧
    badQuote ≠ [] ∧ parseGo 1000 badQuote [] = POut.fuel :=
  ⟨rfl, by decide, parse_stuck_diverges badQuote (by decide) rfl 1000 []⟩

/-- `PDSNode.allValid` agrees with the universal statement over the
children. -/
theorem allValid_iff (cs : List PDSNode) :
    PDSNode.allValid cs = true ↔ ∀ c ∈ cs, c.valid = true := by
  induction cs with
  | nil => simp [PDSNode.allValid]
  | cons c cs ih => simp [PDSNode.allValid, Bool.and_eq_true, ih]

/-- C8 (amended): an object node is valid iff every child is valid and the
children sequence contains — anywhere, not necessarily trailing — an
`END_OBJECT` attribute whose value equals the object's own name. -/
theorem claim_C8_object_validity :
    ∀ (name : Option Str) (children : List PDSNode),
      PDSNode.valid (.obj name children) = true ↔
        ((∀ c ∈ children, c.valid = true) ∧
          ∃ c ∈ children, c.isEndFor name = true) := by
  intro name children
  show (PDSNode.allValid children && children.any (PDSNode.isEndFor name)) = true ↔ _
  rw [Bool.and_eq_true, List.any_eq_true, allValid_iff]

/-- C8 counterexample: an object whose `END_OBJECT = COLUMN` attribute is
followed by a further attribute is still `valid()`, although the matching
`END_OBJECT` is not trailing, so the "trailing" reading of the claim is
false. -/
theorem claim_C8_counterexample :
    PDSNode.valid (.obj (some "COLUMN".toList)
      [.attr ⟨some "END_OBJECT".toList, some "COLUMN".toList⟩,
       .attr ⟨some "A".toList, some "B".toList⟩]) = true ∧
    hasTrailingEnd (some "COLUMN".toList)
      [.attr ⟨some "END_OBJECT".toList, some "COLUMN".toList⟩,
       .attr ⟨some "A".toList, some "B".toList⟩] = false :=
  ⟨rfl, rfl⟩

/-- The quoted branch of the tokenizer: when the value opens with `"` two
places after the assignment, the line runs to the second quote occurrence
and the remaining text resumes right after it. -/
theorem next_quoted (s : Str) (nl as vb q : Nat)
    (hnl : pyFind s '\n' = some nl) (has : pyFind s '=' = some as)
    (hlt : as < nl) (hch : s.get? (as + 2) = some '"')
    (hvb : pyFind s '"' = some vb) (hq : pyFindFrom s '"' (vb + 1) = some q) :
    PDSAttribute.next s =
      some (PDSAttribute.fromstring (s.take (q + 1)), s.drop (q + 1)) := by
  unfold PDSAttribute.next
  simp only [hnl, has, if_pos hlt, hch]
  simp only [if_true, hvb, hq]

/-- C5 (amended): when the value opens with `"` immediately after `= `,
the tokenizer does not stop at the next newline but scans to the second
occurrence of `"`, returns the single attribute parsed from everything up
to and including that quote, and resumes immediately after it; in the
returned value, runs of spaces are collapsed to single spaces and the ends
are trimmed, while the embedded newline and the quote characters
themselves are preserved verbatim. -/
theorem claim_C5_quoted_multiline :
    (∀ (s : Str) (nl as vb q : Nat), pyFind s '\n' = some nl →
      pyFind s '=' = some as → as < nl → s.get? (as + 2) = some '"' →
      pyFind s '"' = some vb → pyFindFrom s '"' (vb + 1) = some q →
      PDSAttribute.next s =
        some (PDSAttribute.fromstring (s.take (q + 1)), s.drop (q + 1))) ∧
    PDSAttribute.next descInput =
      some (⟨some "DESC".toList, some descValue⟩, "\nNEXT = 1\n".toList) ∧
    '\n' ∈ descValue ∧ '"' ∈ descValue :=
  ⟨next_quoted, rfl, by decide, by decide⟩

/-- C5 witness: the quoted branch applied to `descInput`, whose newline
sits at 17, assignment at 5 and quotes at 7 and 26. -/
theorem claim_C5_witness :
    PDSAttribute.next descInput =
      some (PDSAttribute.fromstring (descInput.take 27), descInput.drop 27) :=
  claim_C5_quoted_multiline.1 descInput 17 5 7 26 rfl rfl (by decide) rfl rfl rfl

/-- C5 counterexample: the attribute value for the quoted multi-line input
keeps its embedded newline, so the claim that the value is collapsed to
single-spaced text is false. -/
theorem claim_C5_counterexample :
    PDSAttribute.next "DESC = \"line one\nline two\"\nNEXT = 1\n".toList =
      some (⟨some "DESC".toList, some descValue⟩, "\nNEXT = 1\n".toList) ∧
    '\n' ∈ descValue :=
  ⟨rfl, by decide⟩

/-- C6 (amended): for every column that exists and carries a `DATA_TYPE`
attribute, `column_datatype` deletes the quote characters from the tag and
maps `ASCII_REAL` to float64, `ASCII_INTEGER` to int32 and `TIME` to the
`"TIME"` marker, and for any other tag prints a warning and returns
`None` — in all four cases without raising.  (When the column is absent,
or has no `DATA_TYPE` attribute, an `AttributeError` escapes instead.) -/
theorem claim_C6_column_datatype :
    ∀ (label : PDSLabel) (col_name : Str) (col : PDSNode) (dt : Str),
      find_column_by_name label col_name = some col →
      col.get "DATA_TYPE".toList = some dt →
      ((dt.filter (fun c => c ≠ '"') = "ASCII_REAL".toList →
          column_datatype label col_name = .ok (some DKind.f64)) ∧
       (dt.filter (fun c => c ≠ '"') = "ASCII_INTEGER".toList →
          column_datatype label col_name = .ok (some DKind.i32)) ∧
       (dt.filter (fun c => c ≠ '"') = "TIME".toList →
          column_datatype label col_name = .ok (some DKind.time)) ∧
       (dt.filter (fun c => c ≠ '"') ≠ "ASCII_REAL".toList →
        dt.filter (fun c => c ≠ '"') ≠ "ASCII_INTEGER".toList →
        dt.filter (fun c => c ≠ '"') ≠ "TIME".toList →
          column_datatype label col_name = .ok none)) := by
  intro label col_name col dt hfind hget
  refine ⟨?_, ?_, ?_, ?_⟩
  · intro h
    unfold column_datatype
    simp only [hfind, hget]
    rw [if_pos h]
  · intro h
    unfold column_datatype
    simp only [hfind, hget]
    rw [if_neg (by rw [h]; decide), if_pos h]
  · intro h
    unfold column_datatype
    simp only [hfind, hget]
    rw [if_neg (by rw [h]; decide), if_neg (by rw [h]; decide), if_pos h]
  · intro h1 h2 h3
    unfold column_datatype
    simp only [hfind, hget]
    rw [if_neg h1, if_neg h2, if_neg h3]

/-- C6 witness: the amended theorem applied to the label with the quoted
tag `DATA_TYPE = "TIME"`, where deleting the quotes yields the `TIME`
marker. -/
theorem claim_C6_witness :
    column_datatype qLabel "\"Time\"".toList = .ok (some DKind.time) :=
  (claim_C6_column_datatype qLabel "\"Time\"".toList qCol "\"TIME\"".toList
    rfl rfl).2.2.1 (by decide)

/-- C6 counterexample: a column without a `DATA_TYPE` attribute makes
`column_datatype` raise `AttributeError` (`None.replace`), so the claim
that it never raises is false.  The label is reachable: parsing
`lblNoDTText` produces exactly this label. -/
theorem claim_C6_counterexample :
    mkLabel 16 lblNoDTText = .ok noDTLabel ∧
    column_datatype noDTLabel "A".toList = .exn :=
  ⟨rfl, rfl⟩

/-- C7: for a `TIME` column, `column_data` maps every raw field at the
column's offset through `datetime_str_to_float` with the fixed scheme
`%Y-%m-%dT%H:%M:%S.%fZ` into a float64 array of UTC-epoch seconds,
`2020-01-01T00:00:00.000Z` giving exactly `1577836800` and an unparseable
field giving NaN instead of raising. -/
theorem claim_C7_time_parsing :
    (∀ (ds : PDSDataset) (col_name : Str) (i : Nat) (fields : List Str),
      column_datatype ds.label_data col_name = .ok (some DKind.time) →
      column_index ds col_name = .ok (.scalar i) →
      npCol ds.data i = .ok fields →
      column_data ds col_name =
        .ok (.floats (fields.map (fun f => optF64 (datetime_str_to_float f))))) ∧
    datetime_str_to_float "2020-01-01T00:00:00.000Z".toList = some 1577836800 ∧
    datetime_str_to_float "not-a-date".toList = none ∧
    optF64 (datetime_str_to_float "not-a-date".toList) = F64.nan := by
  refine ⟨?_, ?_, rfl, rfl⟩
  · intro ds col_name i fields hdt hidx hnp
    unfold column_data
    simp only [hdt]
    simp only [if_true, hidx, hnp]
  · have h1 : datetime_str_to_float "2020-01-01T00:00:00.000Z".toList =
        some (epochSeconds 2020 1 1 0 0 0 0) := rfl
    have h2 : epochSeconds 2020 1 1 0 0 0 0 = 1577836800 := by
      unfold epochSeconds
      have hd : daysFromCivil ((2020 : Nat) : Int) 1 1 = 18262 := by decide
      rw [hd]
      norm_num
    rw [h1, h2]

/-- C7 witness: the `TIME` branch applied to the concrete dataset over
`timeLabel`. -/
theorem claim_C7_witness :
    column_data dsTime "Time".toList =
      .ok (.floats (["2020-01-01T00:00:00.000Z".toList, "not-a-date".toList].map
        (fun f => optF64 (datetime_str_to_float f)))) :=
  claim_C7_time_parsing.1 dsTime "Time".toList 0
    ["2020-01-01T00:00:00.000Z".toList, "not-a-date".toList] rfl rfl rfl

/-- C9: correct claim, buggy code — when no column name contains "time",
`time_data` executes `np.array()` with no `object` argument, which raises
`TypeError` instead of returning an empty array; when a time column
exists, `time_data` is `column_data` of the first such column.  Both
datasets are reachable from their file texts. -/
theorem claim_C9_time_data :
    mkDataset 16 lblRealText "1.5\n".toList ',' = .ok dsNoTime ∧
    time_column_name dsNoTime = .ok none ∧
    time_data dsNoTime = .exn ∧
    mkDataset 16 lblTimeText "2020-01-01T00:00:00.000Z\nnot-a-date\n".toList ',' =
      .ok dsTime ∧
    time_column_name dsTime = .ok (some "Time".toList) ∧
    time_data dsTime = column_data dsTime "Time".toList :=
  ⟨rfl, rfl, rfl, rfl, rfl, rfl⟩

/-- Numpy coercion accepts the replacement string `"nan"`. -/
theorem pyParseFloat_nan : pyParseFloat "nan".toList = some F64.nan := rfl

/-- One unfolding of the final float conversion. -/
theorem npToFloats_cons (f : Str) (fs : List Str) :
    npToFloats (f :: fs) =
      match pyParseFloat f with
      | none => .exn
      | some v =>
        match npToFloats fs with
        | .ok vs => .ok (v :: vs)
        | .exn => .exn
        | .fuel => .fuel := rfl

/-- The numeric loop followed by the final float64 conversion computes the
claimed per-field map and never fails: a missing-constant field and an
uncoercible field become NaN, everything else keeps its value. -/
theorem npToFloats_numericFix (mc : Option Str) (fields : List Str) :
    npToFloats (fields.map (numericFix .f64 mc)) =
      .ok (fields.map (specNumericF64 mc)) := by
  induction fields with
  | nil => rfl
  | cons f fs ih =>
    simp only [List.map_cons]
    rw [npToFloats_cons]
    by_cases hmc : some f = mc
    · have hfix : numericFix .f64 mc f = "nan".toList := by
        simp only [numericFix, if_pos hmc, ite_self]
      have hspec : specNumericF64 mc f = F64.nan := by
        simp only [specNumericF64, if_pos hmc]
      rw [hfix, pyParseFloat_nan, ih, hspec]
    · rcases hp : pyParseFloat f with _ | v
      · have hfix : numericFix .f64 mc f = "nan".toList := by
          simp only [numericFix, if_neg hmc, coerceOk, hp, Option.isSome_none,
            Bool.false_eq_true, if_false]
        have hspec : specNumericF64 mc f = F64.nan := by
          simp only [specNumericF64, if_neg hmc, hp, Option.getD_none]
        rw [hfix, pyParseFloat_nan, ih, hspec]
      · have hfix : numericFix .f64 mc f = f := by
          simp only [numericFix, if_neg hmc, coerceOk, hp, Option.isSome_some,
            if_true]
        have hspec : specNumericF64 mc f = v := by
          simp only [specNumericF64, if_neg hmc, hp, Option.getD_some]
        rw [hfix, hp, ih, hspec]

/-- C4 (amended): for a scalar `ASCII_REAL` column with a
`MISSING_CONSTANT` attribute, `column_data` replaces every raw field
equal to the constant with `"nan"` before coercion, replaces every field
that still fails coercion with `"nan"` without raising, and leaves every
other value unchanged; the resulting float64 array holds NaN exactly at
those positions.  For a vector (`ITEMS`) column the 2-D slice fails the
`len(temp_data.shape)==1` test, the replacement loop is skipped entirely,
and the raw rows are converted as they are — a field equal to the missing
constant keeps its numeric value.  (For an `ASCII_INTEGER` column the
loop runs, but the final `np.array(..., dtype=np.intc)` then raises on
the `"nan"` replacements — see the counterexample.) -/
theorem claim_C4_missing_constant :
    (∀ (ds : PDSDataset) (col_name : Str) (col : PDSNode) (mc : Str) (i : Nat)
        (fields : List Str),
      column_datatype ds.label_data col_name = .ok (some DKind.f64) →
      find_column_by_name ds.label_data col_name = some col →
      col.get "MISSING_CONSTANT".toList = some mc →
      column_index ds col_name = .ok (.scalar i) →
      npCol ds.data i = .ok fields →
      column_data ds col_name =
        .ok (.floats (fields.map (specNumericF64 (some mc))))) ∧
    (∀ (ds : PDSDataset) (col_name : Str) (col : PDSNode) (l : List Nat)
        (rows : List (List Str)),
      column_datatype ds.label_data col_name = .ok (some DKind.f64) →
      find_column_by_name ds.label_data col_name = some col →
      column_index ds col_name = .ok (.vec l) →
      npCols ds.data l = .ok rows →
      column_data ds col_name = finalConvert2 DKind.f64 rows) ∧
    (∀ mc : Str, specNumericF64 (some mc) mc = F64.nan) ∧
    (∀ (mc f : Str) (v : F64), f ≠ mc → pyParseFloat f = some v →
      specNumericF64 (some mc) f = v) := by
  refine ⟨?_, ?_, ?_, ?_⟩
  · intro ds col_name col mc i fields hdt hfind hmc hidx hnp
    unfold column_data
    simp only [hdt]
    rw [if_neg (by simp)]
    simp only [hfind, hmc, hidx, hnp]
    unfold finalConvert
    rw [npToFloats_numericFix]
  · intro ds col_name col l rows hdt hfind hidx hnp
    unfold column_data
    simp only [hdt]
    rw [if_neg (by simp)]
    simp only [hfind, hidx, hnp]
  · intro mc
    simp [specNumericF64]
  · intro mc f v hne hp
    simp only [specNumericF64, hp, Option.getD_some]
    rw [if_neg (by simpa using hne)]

/-- C4 witness: the scalar float branch applied to `dsReal` (a plain
value, the missing constant and an uncoercible string) and the vector
branch applied to `dsVecReal`. -/
theorem claim_C4_witness :
    column_data dsReal "A".toList =
      .ok (.floats (["1.5".toList, "-9999".toList, "xyz".toList].map
        (specNumericF64 (some "-9999".toList)))) ∧
    column_data dsVecReal "W".toList =
      finalConvert2 DKind.f64 [["-9999".toList, "1".toList]] :=
  ⟨claim_C4_missing_constant.1 dsReal "A".toList realCol "-9999".toList 0
    ["1.5".toList, "-9999".toList, "xyz".toList] rfl rfl rfl rfl rfl,
   claim_C4_missing_constant.2.1 dsVecReal "W".toList vecRealCol [0, 1]
    [["-9999".toList, "1".toList]] rfl rfl rfl rfl⟩

/-- Inserting a key absent from a dict appends it at the end. -/
theorem dictInsert_of_fresh (m : List (Option Str × ColIdx)) (k : Option Str)
    (v : ColIdx) (h : ∀ p ∈ m, p.1 ≠ k) : dictInsert m k v = m ++ [(k, v)] := by
  induction m with
  | nil => rfl
  | cons p rest ih =>
    obtain ⟨k', v'⟩ := p
    unfold dictInsert
    rw [if_neg (h (k', v') (List.mem_cons_self _ _))]
    rw [ih (fun q hq => h q (List.mem_cons_of_mem _ hq))]
    rfl

/-- The scalar step of `set_column_index_map`: a column without `ITEMS`
takes the running offset and advances it by one. -/
theorem setGo_scalar_step (o : PDSNode) (rest : List PDSNode) (prev : Nat)
    (m : List (Option Str × ColIdx)) (h : o.get "ITEMS".toList = none) :
    setColumnIndexMapGo (o :: rest) prev m =
      setColumnIndexMapGo rest (prev + 1)
        (dictInsert m (o.get "NAME".toList) (ColIdx.scalar prev)) := by
  conv_lhs => unfold setColumnIndexMapGo
  simp only [h]

/-- The vector step of `set_column_index_map`: a column with `ITEMS = k`,
`k ≥ 1`, takes the contiguous offsets `[prev, …, prev + k - 1]` and
advances the running offset by `k`. -/
theorem setGo_vec_step (o : PDSNode) (rest : List PDSNode) (prev : Nat)
    (m : List (Option Str × ColIdx)) (its : Str) (k : Int)
    (hits : o.get "ITEMS".toList = some its) (hk : pyInt its = some k)
    (hpos : 1 ≤ k) :
    setColumnIndexMapGo (o :: rest) prev m =
      setColumnIndexMapGo rest (prev + k.toNat)
        (dictInsert m (o.get "NAME".toList)
          (ColIdx.vec ((List.range k.toNat).map (fun i => prev + i)))) := by
  conv_lhs => unfold setColumnIndexMapGo
  simp only [hits, hk]
  obtain ⟨n, hn⟩ : ∃ n, k.toNat = n + 1 := ⟨k.toNat - 1, by omega⟩
  rw [hn, List.range_succ, List.map_append]
  simp only [List.map_cons, List.map_nil]
  rw [List.getLast?_concat]
  dsimp only
  have harith : 1 + (prev + n) = prev + (n + 1) := by omega
  rw [harith]

/-- `set_column_index_map` over scalar-only columns with fresh, pairwise
distinct names appends the consecutive assignments to the map. -/
theorem setGo_all_scalar (cols : List PDSNode) :
    ∀ (prev : Nat) (m : List (Option Str × ColIdx)),
      (∀ c ∈ cols, c.get "ITEMS".toList = none) →
      (∀ c ∈ cols, c.get "NAME".toList ∉ m.map Prod.fst) →
      (cols.map (fun c => c.get "NAME".toList)).Nodup →
      setColumnIndexMapGo cols prev m = .ok (m ++ scalarAssign prev cols) := by
  induction cols with
  | nil =>
    intro prev m _ _ _
    simp [setColumnIndexMapGo, scalarAssign]
  | cons c rest ih =>
    intro prev m hitems hfresh hnd
    rw [setGo_scalar_step c rest prev m (hitems c (List.mem_cons_self _ _))]
    rw [dictInsert_of_fresh m _ _
      (by
        intro p hp hcon
        apply hfresh c (List.mem_cons_self _ _)
        rw [← hcon]
        exact List.mem_map_of_mem Prod.fst hp)]
    rw [List.map_cons] at hnd
    obtain ⟨hnotmem, hnd'⟩ := List.nodup_cons.mp hnd
    rw [ih (prev + 1) _
      (fun c' hc' => hitems c' (List.mem_cons_of_mem _ hc'))
      (fun c' hc' => by
        rw [List.map_append, List.map_cons, List.map_nil]
        simp only [List.mem_append, List.mem_singleton]
        push_neg
        refine ⟨hfresh c' (List.mem_cons_of_mem _ hc'), fun hcon => ?_⟩
        exact hnotmem (hcon ▸ List.mem_map_of_mem (fun x => x.get "NAME".toList) hc'))
      hnd']
    rw [List.append_assoc]
    rfl

/-- The offsets of a scalar run are consecutive. -/
theorem scalarAssign_snd (cols : List PDSNode) :
    ∀ prev : Nat, (scalarAssign prev cols).map Prod.snd =
      (List.range' prev cols.length).map ColIdx.scalar := by
  induction cols with
  | nil => intro prev; rfl
  | cons c rest ih =>
    intro prev
    simp only [scalarAssign, List.map_cons, List.length_cons]
    rw [ih (prev + 1)]
    rfl

/-- C1 (amended): the column index map is built by one left-to-right pass:
a scalar column takes the current next-free offset and advances it by 1; a
column with `ITEMS = k` for `k ≥ 1` takes the contiguous offsets
`[next_free, …, next_free + k - 1]` and advances by `k` (for `ITEMS ≤ 0`
the code raises `IndexError` instead — see the counterexample); a label
with N scalar columns of distinct names gets exactly the offsets `0..N-1`
gap-free in document order, and a column with `ITEMS = 3` after two scalar
columns occupies `[2,3,4]` with the next column starting at 5. -/
theorem claim_C1_column_index_assignment :
    (∀ (o : PDSNode) (rest : List PDSNode) (prev : Nat)
        (m : List (Option Str × ColIdx)),
      o.get "ITEMS".toList = none →
      setColumnIndexMapGo (o :: rest) prev m =
        setColumnIndexMapGo rest (prev + 1)
          (dictInsert m (o.get "NAME".toList) (ColIdx.scalar prev))) ∧
    (∀ (o : PDSNode) (rest : List PDSNode) (prev : Nat)
        (m : List (Option Str × ColIdx)) (its : Str) (k : Int),
      o.get "ITEMS".toList = some its → pyInt its = some k → 1 ≤ k →
      setColumnIndexMapGo (o :: rest) prev m =
        setColumnIndexMapGo rest (prev + k.toNat)
          (dictInsert m (o.get "NAME".toList)
            (ColIdx.vec ((List.range k.toNat).map (fun i => prev + i))))) ∧
    (∀ data : List PDSNode,
      (∀ c ∈ iter_column data, c.get "ITEMS".toList = none) →
      ((iter_column data).map (fun c => c.get "NAME".toList)).Nodup →
      set_column_index_map data = .ok (scalarAssign 0 (iter_column data)) ∧
      (scalarAssign 0 (iter_column data)).map Prod.snd =
        (List.range (iter_column data).length).map ColIdx.scalar) ∧
    (∃ lbl, mkLabel 32 lblVText = .ok lbl ∧
      lbl.column_index_map =
        [(some "S1".toList, .scalar 0), (some "S2".toList, .scalar 1),
         (some "V".toList, .vec [2, 3, 4]), (some "S3".toList, .scalar 5)]) := by
  refine ⟨setGo_scalar_step, setGo_vec_step, ?_, ⟨_, rfl, rfl⟩⟩
  intro data hitems hnd
  constructor
  · unfold set_column_index_map
    rw [setGo_all_scalar (iter_column data) 0 [] hitems (by simp) hnd]
    rfl
  · rw [scalarAssign_snd, List.range_eq_range']

/-- C1 witness: the scalar step and the scalar-only pass applied to the
one-column label node list. -/
theorem claim_C1_witness :
    setColumnIndexMapGo [noDTCol] 0 [] =
      setColumnIndexMapGo [] (0 + 1)
        (dictInsert [] (noDTCol.get "NAME".toList) (ColIdx.scalar 0)) ∧
    set_column_index_map [noDTCol] = .ok (scalarAssign 0 (iter_column [noDTCol])) :=
  ⟨claim_C1_column_index_assignment.1 noDTCol [] 0 [] rfl,
   (claim_C1_column_index_assignment.2.2.1 [noDTCol] (by decide) (by decide)).1⟩

/-- C1 counterexample: a parsed label whose column declares `ITEMS = 0`
makes `set_column_index_map` raise `IndexError` (`[][-1]`) instead of
assigning the empty range and advancing the offset by 0. -/
theorem claim_C1_counterexample :
    parseLabel 16 lblZText = .ok [zCol] ∧
    zCol.get "ITEMS".toList = some "0".toList ∧
    pyInt "0".toList = some 0 ∧
    set_column_index_map [zCol] = .exn :=
  ⟨rfl, rfl, rfl, rfl⟩

/-- Dropping leading copies of `c` does not change the characters other
than `c`. -/
theorem filter_dropWhile_eq (s : Str) (c : Char) :
    (s.dropWhile (· = c)).filter (· ≠ c) = s.filter (· ≠ c) := by
  induction s with
  | nil => rfl
  | cons x xs ih =>
    rw [List.dropWhile_cons]
    by_cases hx : x = c
    · rw [if_pos (by simp [hx]), ih, List.filter_cons, if_neg (by simp [hx])]
    · rw [if_neg (by simp [hx])]

/-- `str_rem_trailing` does not change the characters other than `c`. -/
theorem filter_str_rem_trailing (s : Str) (c : Char) :
    (str_rem_trailing s c).filter (· ≠ c) = s.filter (· ≠ c) := by
  unfold str_rem_trailing
  rw [List.filter_reverse, filter_dropWhile_eq, List.filter_reverse,
    List.reverse_reverse]

/-- `str_rem_ends` does not change the characters other than `c`. -/
theorem filter_str_rem_ends (s : Str) (c : Char) :
    (str_rem_ends s c).filter (· ≠ c) = s.filter (· ≠ c) := by
  unfold str_rem_ends str_rem_preceding
  rw [filter_str_rem_trailing, filter_dropWhile_eq]

/-- `split` always yields at least one chunk. -/
theorem splitOnChar_ne_nil (c : Char) (s : Str) : splitOnChar c s ≠ [] := by
  cases s with
  | nil => simp [splitOnChar]
  | cons x xs =>
    unfold splitOnChar
    split
    · simp
    · split <;> simp

/-- The concatenation of all chunks of a split is the input without its
separators. -/
theorem splitOnChar_concat (c : Char) (s : Str) :
    (splitOnChar c s).foldr (· ++ ·) [] = s.filter (· ≠ c) := by
  induction s with
  | nil => rfl
  | cons x xs ih =>
    cases hsp : splitOnChar c xs with
    | nil => exact absurd hsp (splitOnChar_ne_nil c xs)
    | cons r rs =>
      rw [hsp] at ih
      conv_lhs => unfold splitOnChar
      rw [hsp]
      dsimp only
      by_cases hx : x = c
      · rw [if_pos hx]
        simp only [List.foldr_cons, List.nil_append] at ih ⊢
        rw [ih, List.filter_cons, if_neg (by simp [hx])]
      · rw [if_neg hx]
        simp only [List.foldr_cons, List.cons_append] at ih ⊢
        rw [ih, List.filter_cons, if_pos (by simp [hx])]

/-- No chunk of a split contains the separator. -/
theorem splitOnChar_no_sep (c : Char) (s : Str) :
    ∀ x ∈ splitOnChar c s, c ∉ x := by
  induction s with
  | nil =>
    intro x hx
    rw [List.mem_singleton.mp hx]
    simp
  | cons y ys ih =>
    cases hsp : splitOnChar c ys with
    | nil => exact absurd hsp (splitOnChar_ne_nil c ys)
    | cons r rs =>
      rw [hsp] at ih
      intro x hx
      rw [show splitOnChar c (y :: ys) =
          (if y = c then [] :: r :: rs else (y :: r) :: rs) by
        conv_lhs => unfold splitOnChar
        rw [hsp]] at hx
      by_cases hy : y = c
      · rw [if_pos hy] at hx
        rcases List.mem_cons.mp hx with rfl | hx'
        · simp
        · exact ih x hx'
      · rw [if_neg hy] at hx
        rcases List.mem_cons.mp hx with rfl | hx'
        · intro hcon
          rcases List.mem_cons.mp hcon with hcy | hcr
          · exact hy hcy.symm
          · exact ih r (List.mem_cons_self _ _) hcr
        · exact ih x (List.mem_cons_of_mem _ hx')

/-- Dropping empty chunks does not change the concatenation. -/
theorem foldr_append_filter_ne_nil (lst : List Str) :
    (lst.filter (fun x => x ≠ [])).foldr (· ++ ·) [] = lst.foldr (· ++ ·) [] := by
  induction lst with
  | nil => rfl
  | cons x rest ih =>
    rw [List.filter_cons]
    by_cases hx : x = []
    · rw [if_neg (by simp [hx]), ih, List.foldr_cons, hx, List.nil_append]
    · rw [if_pos (by simp [hx]), List.foldr_cons, List.foldr_cons, ih]

/-- What the joining fold of `str_join_list` leaves after removing
spaces. -/
theorem filter_str_join_fold (lst : List Str) :
    ∀ a : Str, (lst.foldl (fun a e => a ++ ' ' :: e) a).filter (· ≠ ' ') =
      a.filter (· ≠ ' ') ++ (lst.map (List.filter (· ≠ ' '))).foldr (· ++ ·) [] := by
  induction lst with
  | nil => intro a; simp
  | cons e rest ih =>
    intro a
    rw [List.foldl_cons, ih, List.filter_append, List.filter_cons]
    rw [if_neg (by simp), List.map_cons, List.foldr_cons, List.append_assoc]

/-- Filtering spaces is the identity on space-free strings. -/
theorem map_filter_id_of_no_space (lst : List Str) (h : ∀ x ∈ lst, ' ' ∉ x) :
    lst.map (List.filter (· ≠ ' ')) = lst := by
  induction lst with
  | nil => rfl
  | cons x rest ih =>
    rw [List.map_cons, ih (fun y hy => h y (List.mem_cons_of_mem _ hy))]
    rw [List.filter_eq_self.mpr]
    intro a ha
    simp only [ne_eq, decide_eq_true_eq]
    intro hcon
    exact h x (List.mem_cons_self _ _) (hcon ▸ ha)

/-- `str_rem_successive` does not change the characters other than
spaces. -/
theorem filter_str_rem_successive (s : Str) :
    (str_rem_successive s ' ').filter (· ≠ ' ') = s.filter (· ≠ ' ') := by
  unfold str_rem_successive str_join_list
  rw [filter_str_join_fold]
  rw [map_filter_id_of_no_space _
    (fun x hx => splitOnChar_no_sep ' ' s x (List.mem_of_mem_filter hx))]
  rw [List.filter_nil, List.nil_append, foldr_append_filter_ne_nil,
    splitOnChar_concat]

/-- The value produced by `fromstring` keeps every non-space character of
the raw right-hand side of the assignment — in particular every quote
character — in order. -/
theorem fromstring_value_filter (s : Str) (as : Nat)
    (h : pyFind s '=' = some as) :
    ∃ v, (PDSAttribute.fromstring s).value = some v ∧
      v.filter (· ≠ ' ') = (s.drop (as + 1)).filter (· ≠ ' ') := by
  unfold PDSAttribute.fromstring
  simp only [h]
  refine ⟨_, rfl, ?_⟩
  by_cases hq : '"' ∈ str_rem_ends (s.drop (as + 1)) ' '
  · rw [if_pos hq, filter_str_rem_ends, filter_str_rem_successive,
      filter_str_rem_ends]
  · rw [if_neg hq, filter_str_rem_ends]

/-- C10: the label parser never strips quote characters from attribute
values (no non-space character of the right-hand side is dropped), so an
attribute written `NAME = "Time"` stores the quotes, name lookups and the
column index map match only the quoted spelling, and `column_datatype` is
the accessor that deletes the quotes from the `DATA_TYPE` value before
mapping it. -/
theorem claim_C10_quotes_preserved :
    (∀ (s : Str) (as : Nat), pyFind s '=' = some as →
      ∃ v, (PDSAttribute.fromstring s).value = some v ∧
        v.filter (· ≠ ' ') = (s.drop (as + 1)).filter (· ≠ ' ')) ∧
    mkLabel 16 lblQText = .ok qLabel ∧
    qCol.get "NAME".toList = some "\"Time\"".toList ∧
    find_column_by_name qLabel "Time".toList = none ∧
    find_column_by_name qLabel "\"Time\"".toList = some qCol ∧
    dictGet qLabel.column_index_map (some "Time".toList) = none ∧
    dictGet qLabel.column_index_map (some "\"Time\"".toList) =
      some (ColIdx.scalar 0) ∧
    column_datatype qLabel "\"Time\"".toList = .ok (some DKind.time) :=
  ⟨fromstring_value_filter, rfl, rfl, rfl, rfl, rfl, rfl, rfl⟩

/-- C10 witness: the preservation statement applied to the quoted line
`NAME = "Time"`. -/
theorem claim_C10_witness :
    ∃ v, (PDSAttribute.fromstring "NAME = \"Time\"".toList).value = some v ∧
      v.filter (· ≠ ' ') =
        ("NAME = \"Time\"".toList.drop 6).filter (· ≠ ' ') :=
  claim_C10_quotes_preserved.1 "NAME = \"Time\"".toList 5 rfl

/-- C4 counterexample: on an `ASCII_INTEGER` column whose raw field
equals the missing constant, `column_data` raises (`ValueError` at the
final `np.array(temp_data, dtype=np.intc)`, since `"nan"` is not an
integer) instead of yielding NaN at that position; and on a vector
(`ITEMS = 2`) `ASCII_REAL` column with `MISSING_CONSTANT = -9999`, a raw
field `-9999` is not replaced at all — the replacement loop is skipped on
the 2-D slice and the field converts to the number −9999, not NaN.  Both
datasets are reachable from their file texts. -/
theorem claim_C4_counterexample :
    (mkDataset 16 lblIntText "1\n-9999\n".toList ',' = .ok dsInt ∧
     column_datatype dsInt.label_data "B".toList = .ok (some DKind.i32) ∧
     dsInt.data = [["1".toList], ["-9999".toList]] ∧
     column_data dsInt "B".toList = .exn) ∧
    (mkDataset 32 lblVecRealText "-9999,1\n".toList ',' = .ok dsVecReal ∧
     column_datatype dsVecReal.label_data "W".toList = .ok (some DKind.f64) ∧
     vecRealCol.get "MISSING_CONSTANT".toList = some "-9999".toList ∧
     dsVecReal.data = [["-9999".toList, "1".toList]] ∧
     column_data dsVecReal "W".toList =
       .ok (.floats2 [[F64.num (-9999), F64.num 1]]) ∧
     F64.num (-9999 : ℚ) ≠ F64.nan) := by
  refine ⟨⟨rfl, rfl, rfl, rfl⟩, rfl, rfl, rfl, rfl, ?_, by decide⟩
  have hp1 : pyParseFloat "-9999".toList = some (F64.num (-9999)) := by
    have h : pyParseFloat "-9999".toList =
        some (F64.num (-((9999 : ℚ) + (0 : ℚ) / (10 : ℚ) ^ (0 : Nat)))) := rfl
    rw [h]
    norm_num
  have hp2 : pyParseFloat "1".toList = some (F64.num 1) := by
    have h : pyParseFloat "1".toList =
        some (F64.num ((1 : ℚ) + (0 : ℚ) / (10 : ℚ) ^ (0 : Nat))) := rfl
    rw [h]
    norm_num
  have hnf : npToFloats ["-9999".toList, "1".toList] =
      .ok [F64.num (-9999), F64.num 1] := by
    simp only [npToFloats_cons, hp1, hp2]
    rfl
  have hcd : column_data dsVecReal "W".toList =
      finalConvert2 DKind.f64 [["-9999".toList, "1".toList]] := rfl
  rw [hcd]
  unfold finalConvert2
  simp only [List.foldr_cons, List.foldr_nil, hnf]

end Amdapy
